import Mathlib

/-!
Shallow embedding of the kataras/i18n locale-resolution engine (i18n.go)
and proofs of the specification claims about it.

External collaborators (the golang.org/x/text language parser and matcher,
net/http request plumbing, the publicsuffix domain lookup, the template
engine and fmt.Sprintf of the internal renderer) are abstracted as function
parameters or structure fields; everything that lives in i18n.go itself is
translated structurally.
-/

namespace I18nSpec

/-- Language tags (language.Tag of golang.org/x/text) are abstracted as their
normalized string form; parsing and matching over them are parameters. -/
abbrev Tag := String

/-- language.Confidence of golang.org/x/text: No = 0, Low = 1, High = 2,
Exact = 3. -/
inductive Confidence where
  | No
  | Low
  | High
  | Exact
deriving DecidableEq, Repr

/-- Numeric value of a confidence, matching the Go constant ordering. -/
def Confidence.toNat : Confidence → Nat
  | .No => 0
  | .Low => 1
  | .High => 2
  | .Exact => 3

/-- The comparison conf greater than language.Low used throughout i18n.go. -/
def Confidence.gtLow (c : Confidence) : Bool :=
  decide (Confidence.Low.toNat < c.toNat)

/-- The internal.Locale capability surface used by i18n.go: Language(),
Index() and GetMessage(key, args...). Message arguments (Go interface
values) are abstracted by the type parameter. -/
structure Locale (α : Type) where
  lang : String
  index : Int
  getMessage : String → List α → String

/-- The Matcher of i18n.go: the strict flag, the ordered registered-language
list, and the wrapped language.Matcher (external), abstracted as a function
from a candidate tag to (best tag, index, confidence). -/
structure Matcher where
  strict : Bool
  languages : List Tag
  matcher : Tag → Tag × Int × Confidence

/-- Matcher.Match of i18n.go on a single candidate: delegates to the wrapped
language.Matcher. -/
def Matcher.Match (m : Matcher) (t : Tag) : Tag × Int × Confidence :=
  m.matcher t

/-- Matcher.MatchOrAdd of i18n.go, with the external language.NewMatcher
constructor passed as newMatcher; the Go in-place mutation is modelled by
returning the updated Matcher next to the result. -/
def Matcher.MatchOrAdd (newMatcher : List Tag → Tag → Tag × Int × Confidence)
    (m : Matcher) (t : Tag) : (Tag × Int × Confidence) × Matcher :=
  let r := m.Match t
  if r.2.2.toNat ≤ Confidence.Low.toNat ∧ m.strict = false then
    let langs := m.languages ++ [t]
    ((t, (langs.length : Int) - 1, Confidence.Exact),
      { m with languages := langs, matcher := newMatcher langs })
  else (r, m)

/-- Position of the last occurrence of a character, as strings.LastIndexByte
computes it (here over the character list; the separators involved are all
ASCII). -/
def lastIdxOf (c : Char) : List Char → Option Nat
  | [] => none
  | x :: xs =>
    match lastIdxOf c xs with
    | some n => some (n + 1)
    | none => if x = c then some 0 else none

/-- Position of the first occurrence of a character (strings.IndexByte). -/
def firstIdxOf (c : Char) : List Char → Option Nat
  | [] => none
  | x :: xs => if x = c then some 0 else (firstIdxOf c xs).map (· + 1)

/-- The extension strip at the head of parseLanguage in i18n.go: cut at the
last dot when that dot is not at position 0. -/
def stripExt (path : String) : String :=
  match lastIdxOf '.' path.toList with
  | some idx => if 0 < idx then ⟨path.toList.take idx⟩ else path
  | none => path

/-- The separator set of parseLanguage: underscore, os.PathSeparator (the
build is POSIX so it coincides with the slash), slash, dot. -/
def isLangSep (r : Char) : Bool :=
  r = '_' || r = '/' || r = '.'

/-- Splitting a character list at every separator, keeping empty groups
(the groups between two adjacent separators and at the ends). -/
def splitChars (p : Char → Bool) : List Char → List (List Char)
  | [] => [[]]
  | c :: cs =>
    if p c then [] :: splitChars p cs
    else
      match splitChars p cs with
      | [] => [[c]]
      | g :: gs => (c :: g) :: gs

/-- strings.FieldsFunc: maximal runs of characters not satisfying the
separator predicate; no empty fields are produced. -/
def fieldsFunc (p : Char → Bool) (s : String) : List String :=
  ((splitChars p s.toList).map (fun g => (⟨g⟩ : String))).filter
    (fun x => x ≠ "")

/-- reverseStrings of i18n.go. -/
def reverseStrings (s : List String) : List String :=
  s.reverse

/-- The scan loop at the end of parseLanguage: the first list element the
external parser accepts. -/
def firstParse (parse : String → Option Tag) : List String → Option Tag
  | [] => none
  | s :: rest =>
    match parse s with
    | some t => some t
    | none => firstParse parse rest

/-- parseLanguage of i18n.go: strip from the last dot when it is not at the
start, split on separators, reverse, and return the first (hence rightmost)
segment the external language.Parse accepts; none models the
(language.Und, false) result. -/
def parseLanguage (parse : String → Option Tag) (path : String) : Option Tag :=
  firstParse parse (reverseStrings (fieldsFunc isLangSep (stripExt path)))

/-- The parse of the last (rightmost) list element the parser accepts. -/
def lastParse (parse : String → Option Tag) : List String → Option Tag
  | [] => none
  | s :: rest =>
    match lastParse parse rest with
    | some t => some t
    | none => parse s

/-- Claim C3 stated as the spec words it: strip the final extension, split
into segments, and return the parse of the rightmost segment that parses. -/
def rightmostParsedSegment (parse : String → Option Tag) (path : String) :
    Option Tag :=
  lastParse parse (fieldsFunc isLangSep (stripExt path))

/-- The request surface of net/http that i18n.go reads: URL path and host,
RequestURI, the value stored under the configured context key (none when
absent, some none when present but not a string, some (some s) for the
string s), URL query lookup, cookie lookup (none models the r.Cookie error)
and the Accept-Language header value. -/
structure Request where
  urlPath : String
  requestURI : String
  urlHost : String
  host : String
  contextValue : Option (Option String)
  query : String → String
  cookies : String → Option String
  acceptLanguage : String

/-- The side effects of setLang in i18n.go: the response cookie write, the
URL query parameter write and the request header write. -/
inductive Action where
  | setCookie (name value domain : String)
  | setQueryParam (name value : String)
  | setHeader (name value : String)
deriving DecidableEq, Repr

/-- The I18n structure of i18n.go. TryMatchString (language.Parse followed by
Matcher.Match with confidence above Low) and the Accept-Language match
(ParseAcceptLanguage followed by Matcher.Match with confidence above Low)
compose external golang.org/x/text operations and appear as the fields
tryMatch and acceptMatch: tryMatch s = some (tag, index) models a successful
TryMatchString (ok = true, index nonnegative), none models its
(language.Und, -1, false) result. ContextKey being non-nil is the flag
contextKeySet; the remaining fields mirror the Go struct. -/
structure I18n (α : Type) where
  localizer : Int → Option (Locale α)
  tryMatch : String → Option (Tag × Nat)
  acceptMatch : String → Option Int
  contextKeySet : Bool
  defaultMessageFunc : Option (String → String → String → List α → String)
  extractFunc : Option (Request → String)
  urlParameter : String
  cookie : String
  subdomain : Bool
  strict : Bool

/-- The language resolution at the head of I18n.Tr: the TryMatchString
index, falling back to 0 when the code does not match. -/
def I18n.trIndex (i : I18n α) (lang : String) : Int :=
  match i.tryMatch lang with
  | some r => (r.2 : Int)
  | none => 0

/-- I18n.Tr of i18n.go. In the default-language retry the source
dereferences GetLocale(0) without a nil check; the missing-locale case is
modelled as the empty string and the claims about the retry carry a
locale-0-exists hypothesis. -/
def I18n.Tr (i : I18n α) (lang fmt : String) (args : List α) : String :=
  let index : Int := i.trIndex lang
  let lm : String × String :=
    match i.localizer index with
    | none => ("", "")
    | some loc =>
      let msg := loc.getMessage fmt args
      if msg = "" ∧ i.defaultMessageFunc.isNone = true ∧ i.strict = false ∧ 0 < index then
        (loc.lang, ((i.localizer 0).map fun l0 => l0.getMessage fmt args).getD "")
      else (loc.lang, msg)
  if lm.2 = "" then
    match i.defaultMessageFunc with
    | some f => f lang lm.1 fmt args
    | none => ""
  else lm.2

/-- getHost of i18n.go. -/
def getHost (r : Request) : String :=
  if r.urlHost ≠ "" then r.urlHost else r.host

/-- getSubdomain of i18n.go: the leading host label when a dot occurs after
it, together with the remaining host. -/
def getSubdomain (r : Request) : String × String :=
  let host := getHost r
  match firstIdxOf '.' host.toList with
  | some idx =>
    if 0 < idx then (⟨host.toList.take idx⟩, ⟨host.toList.drop (idx + 1)⟩)
    else ("", host)
  | none => ("", host)

/-- One detection-signal step of I18n.GetLocale. The running state is the
(index, ok) pair of the source; a present signal value is pushed through
TryMatchString, whose failure leaves index = -1 and ok = false exactly as in
the source. -/
def trySignal (tm : String → Option (Tag × Nat)) (st : Int × Bool)
    (v : Option String) : Int × Bool :=
  if st.2 then st
  else
    match v with
    | none => st
    | some s =>
      match tm s with
      | some r => ((r.2 : Int), true)
      | none => (-1, false)

/-- The signal scan of I18n.GetLocale (custom extract function, URL query
parameter, cookie, subdomain, then the Accept-Language header), producing
the index handed to the localizer when no context value short-circuits. -/
def I18n.resolveSignalsIndex (i : I18n α) (r : Request) : Int :=
  let st : Int × Bool := (0, false)
  let st := trySignal i.tryMatch st
    (match i.extractFunc with
     | some f => if f r ≠ "" then some (f r) else none
     | none => none)
  let st := trySignal i.tryMatch st
    (if i.urlParameter ≠ "" ∧ r.query i.urlParameter ≠ "" then
      some (r.query i.urlParameter)
    else none)
  let st := trySignal i.tryMatch st
    (if i.cookie ≠ "" then r.cookies i.cookie else none)
  let st := trySignal i.tryMatch st
    (if i.subdomain = true ∧ (getSubdomain r).1 ≠ "" then
      some (getSubdomain r).1
    else none)
  if st.2 then st.1
  else
    match (if r.acceptLanguage ≠ "" then i.acceptMatch r.acceptLanguage else none) with
    | some idx => idx
    | none => st.1

/-- The index computed by the context-key short-circuit of I18n.GetLocale:
0 for the literal value default, otherwise the TryMatchString index with -1
on failure (the ok result is discarded by the source). -/
def I18n.ctxResolvedIndex (i : I18n α) (s : String) : Int :=
  if s = "default" then 0
  else
    match i.tryMatch s with
    | some p => (p.2 : Int)
    | none => -1

/-- I18n.GetLocale of i18n.go: when the context key is configured and holds
a string value the locale for that value alone is returned (possibly none);
otherwise the detection signals are scanned in order. -/
def I18n.getLocale (i : I18n α) (r : Request) : Option (Locale α) :=
  match i.contextKeySet, r.contextValue with
  | true, some (some s) => i.localizer (i.ctxResolvedIndex s)
  | _, _ => i.localizer (i.resolveSignalsIndex r)

/-- setLang of i18n.go: the cookie write (with the publicsuffix-derived
domain of getDomain abstracted by domainOf) when a cookie name is
configured, otherwise the URL query parameter write, and always the
Accept-Language header write. -/
def I18n.setLang (domainOf : String → String) (i : I18n α) (r : Request)
    (lang : String) : List Action :=
  (if i.cookie ≠ "" then
    [Action.setCookie i.cookie lang (domainOf (getHost r))]
  else if i.urlParameter ≠ "" then
    [Action.setQueryParam i.urlParameter lang]
  else []) ++ [Action.setHeader "Accept-Language" lang]

/-- The first path segment inspected by I18n.Router: the URL path after its
leading slash, cut at the first further slash when that slash is not at
position 0. -/
def firstPathSegment (urlPath : String) : String :=
  let path := urlPath.drop 1
  match firstIdxOf '/' path.toList with
  | some idx => if 0 < idx then ⟨path.toList.take idx⟩ else path
  | none => path

/-- I18n.Router of i18n.go: the request handed to the wrapped handler
together with the setLang side effects. A matching first path segment is
stripped from the path (the empty remainder becoming the root slash) and
recorded through setLang; otherwise, with the subdomain option on, a
matching leading host label is stripped from the host and recorded; in every
other case the request passes through untouched. -/
def I18n.router (domainOf : String → String) (i : I18n α) (r : Request) :
    Request × List Action :=
  let seg := firstPathSegment r.urlPath
  let matched :=
    if seg ≠ "" then
      match i.tryMatch seg with
      | some p =>
        let path2 := r.urlPath.drop (seg.length + 1)
        let path2 := if path2 = "" then "/" else path2
        some ({ r with requestURI := path2, urlPath := path2 },
          i.setLang domainOf r p.1)
      | none => none
    else none
  match matched with
  | some res => res
  | none =>
    if i.subdomain = true then
      let sh := getSubdomain r
      if sh.1 ≠ "" then
        match i.tryMatch sh.1 with
        | some p =>
          let r2 := { r with urlHost := sh.2, host := sh.2 }
          (r2, i.setLang domainOf r2 p.1)
        | none => (r, [])
      else (r, [])
    else (r, [])

/-- The reload-relevant state of the I18n structure: the matcher handed to
the loader and the published localizer. -/
structure LoadState (α : Type) where
  matcher : Matcher
  localizer : Int → Option (Locale α)

/-- A Loader outcome: either the new localizer or the load error, next to
the matcher as the loader leaves it (the Go loader may grow the registered
languages in place through the pointer even on a failing run). -/
abbrev Loader (α : Type) :=
  Matcher → Except String (Int → Option (Locale α)) × Matcher

/-- I18n.reload of i18n.go: run the loader on the matcher; on error return
that error leaving the published localizer in place; on success publish the
loaded localizer. -/
def reload (loader : Loader α) (st : LoadState α) :
    Option String × LoadState α :=
  let res := loader st.matcher
  match res.1 with
  | .error e => (some e, { st with matcher := res.2 })
  | .ok loc => (none, { matcher := res.2, localizer := loc })

/-- Modelled from the spec: the SetDefault(index) capability of the internal
memory localizer, which is not among the sources. Spec 4.5: it exchanges
logical default-hood between index 0 and index by swapping the stored
references at the two slots, reassigning the index identity of the moved
Locales (spec 3); it fails (Go false) when no Locale is stored at index. -/
def localizerSetDefault (L : Int → Option (Locale α)) (index : Int) :
    Option (Int → Option (Locale α)) :=
  match L index with
  | none => none
  | some loc =>
    some fun j =>
      if j = 0 then some { loc with index := 0 }
      else if j = index then (L 0).map fun f => { f with index := index }
      else L j

/-- The SetDefault-relevant state, with the interface assertion of i18n.go
(whether the localizer supports SetDefault) as the flag sdSupported. -/
structure SDState (α : Type) where
  matcher : Matcher
  localizer : Int → Option (Locale α)
  sdSupported : Bool

/-- I18n.SetDefault of i18n.go, with language.Parse and language.NewMatcher
passed as parameters. On success the registered-tag slot at the matched
index receives the old slot 0, slot 0 receives the matched tag, the wrapped
matcher is rebuilt over the new list, and the localizer capability performs
the corresponding slot swap; on any failure nothing changes. -/
def setDefault (parse : String → Option Tag)
    (newMatcher : List Tag → Tag → Tag × Int × Confidence)
    (st : SDState α) (langCode : String) : Bool × SDState α :=
  match parse langCode with
  | none => (false, st)
  | some t =>
    let m := st.matcher.Match t
    if m.2.2.gtLow = true then
      if st.sdSupported = true then
        match localizerSetDefault st.localizer m.2.1 with
        | some L2 =>
          let tags := st.matcher.languages
          let tags2 := (tags.set m.2.1.toNat (tags.getD 0 "")).set 0 m.1
          (true, { st with
            localizer := L2,
            matcher := { st.matcher with
              languages := tags2, matcher := newMatcher tags2 } })
        | none => (false, st)
      else (false, st)
    else (false, st)

/-- Modelled from the spec: the per-Locale message renderer of the internal
package, which is not among the sources (spec 4.4): look the key up in the
flattened table (absent keys give the empty string); when the raw message
carries template-style placeholders, execute the compiled template and on a
compile or execution error fall back to printf-style formatting of the raw
string against the arguments; otherwise format printf-style. The external
template engine and fmt.Sprintf are the parameters execTemplate and
sprintf; hasTemplate recognizes template placeholders in the raw text. -/
def renderMessage (hasTemplate : String → Bool)
    (execTemplate : String → List α → Except String String)
    (sprintf : String → List α → String)
    (table : String → Option String) (key : String) (args : List α) : String :=
  match table key with
  | none => ""
  | some raw =>
    if hasTemplate raw then
      match execTemplate raw args with
      | .ok s => s
      | .error _ => sprintf raw args
    else sprintf raw args

/-! Concrete instances used to evaluate the embedding at specific inputs. -/

/-- A neutral request: root path, no context value, empty query and cookie
maps, no Accept-Language header. -/
def reqBase : Request :=
  ⟨"/", "/", "", "example.com", none, fun _ => "", fun _ => none, ""⟩

/-- Default-locale messages of the C1 instance: only the key k has text. -/
def enMsgC1 : String → List String → String :=
  fun k _ => if k = "k" then "default-v" else ""

/-- The default (index 0) Locale of the C1 instance. -/
def locEnC1 : Locale String := ⟨"en-US", 0, enMsgC1⟩

/-- The index 1 Locale of the C1 instance; its table is empty. -/
def locElC1 : Locale String := ⟨"el-GR", 1, fun _ _ => ""⟩

/-- A two-locale instance with no DefaultMessageFunc and Strict off. -/
def cfgC1 : I18n String where
  localizer := fun j =>
    if j = 0 then some locEnC1 else if j = 1 then some locElC1 else none
  tryMatch := fun s =>
    if s = "el" then some ("el-GR", 1)
    else if s = "en-US" then some ("en-US", 0) else none
  acceptMatch := fun _ => none
  contextKeySet := false
  defaultMessageFunc := none
  extractFunc := none
  urlParameter := ""
  cookie := ""
  subdomain := false
  strict := false

/-- An instance whose extract function yields a value no language matches
and which has no further detection signal configured. -/
def glC2 : I18n String where
  localizer := fun j =>
    if j = 0 then some ⟨"en-US", 0, fun _ _ => "ok"⟩ else none
  tryMatch := fun _ => none
  acceptMatch := fun _ => none
  contextKeySet := false
  defaultMessageFunc := none
  extractFunc := some fun _ => "xx"
  urlParameter := ""
  cookie := ""
  subdomain := false
  strict := false

/-- A parser accepting exactly the two tags of the C3 examples. -/
def parse3 : String → Option Tag :=
  fun s => if s = "el-GR" ∨ s = "en-US" then some s else none

/-- A stand-in for language.NewMatcher: the rebuilt matcher is irrelevant to
the statements, only its identity as newMatcher applied to the grown list. -/
def nmW : List Tag → Tag → Tag × Int × Confidence :=
  fun _ t => (t, 0, Confidence.No)

/-- An open-mode matcher with one registered language whose wrapped matcher
matches nothing. -/
def mW : Matcher := ⟨false, ["en-US"], fun _ => ("und", -1, Confidence.No)⟩

/-- A loader that always fails. -/
def loaderErrW : Loader String := fun m => (Except.error "boom", m)

/-- A load state carrying an empty published localizer. -/
def loadStW : LoadState String := ⟨mW, fun _ => none⟩

/-- Template detection of the C6 instance. -/
def hasTW : String → Bool := fun s => s = "T %s"

/-- A template engine that always fails. -/
def execTW : String → List String → Except String String :=
  fun _ _ => Except.error "bad"

/-- A printf stand-in marking its output. -/
def sprintfW : String → List String → String := fun raw _ => raw ++ "!"

/-- A one-key flattened table. -/
def tableW : String → Option String :=
  fun k => if k = "k" then some "T %s" else none

/-- Messages of the index 1 Locale of the C7 instance. -/
def elMsg7 : String → List String → String := fun _ _ => "el"

/-- Messages of the index 0 Locale of the C7 instance. -/
def enMsg7 : String → List String → String := fun _ _ => "en"

/-- The index 1 Locale of the C7 instance. -/
def loc7el : Locale String := ⟨"el-GR", 1, elMsg7⟩

/-- The index 0 Locale of the C7 instance. -/
def loc7en : Locale String := ⟨"en-US", 0, enMsg7⟩

/-- The two-slot localizer of the C7 instance. -/
def loc7 : Int → Option (Locale String) :=
  fun j => if j = 0 then some loc7en else if j = 1 then some loc7el else none

/-- A strict matcher over two registered tags matching only el-GR. -/
def matcher7 : Matcher :=
  ⟨true, ["en-US", "el-GR"],
    fun t => if t = "el-GR" then ("el-GR", 1, Confidence.Exact)
      else ("und", -1, Confidence.No)⟩

/-- A parser accepting only el-GR. -/
def parse7 : String → Option Tag :=
  fun s => if s = "el-GR" then some s else none

/-- The SetDefault state of the C7 instance; its localizer supports default
reassignment. -/
def st7 : SDState String := ⟨matcher7, loc7, true⟩

/-- A router instance: cookie recording configured, el registered. -/
def cfg8 : I18n String :=
  { glC2 with
    tryMatch := fun s => if s = "el" then some ("el-GR", 1) else none
    extractFunc := none
    cookie := "lang" }

/-- A request for the language-prefixed path of the C8 example. -/
def req8 : Request :=
  { reqBase with urlPath := "/el/cart", requestURI := "/el/cart" }

/-- A domain resolver stand-in for the publicsuffix lookup. -/
def domainOfW : String → String := fun h => h

/-- An instance whose DefaultMessageFunc echoes the requested language
code. -/
def trC9 : I18n String :=
  { glC2 with
    localizer := fun j =>
      if j = 0 then some ⟨"en-US", 0, fun _ _ => ""⟩ else none
    tryMatch := fun s => if s = "en-US" then some ("en-US", 0) else none
    extractFunc := none
    defaultMessageFunc := some fun input _ _ _ => input }

/-- The C9 instance with the DefaultMessageFunc removed. -/
def cfgC9w : I18n String := { trC9 with defaultMessageFunc := none }

/-- A context-key-enabled instance. -/
def cfg10 : I18n String :=
  { glC2 with contextKeySet := true, extractFunc := none }

/-- A request whose context value is the literal string default. -/
def req10 : Request := { reqBase with contextValue := some (some "default") }

/-! Helper lemmas shared by the claim theorems. -/

theorem firstParse_append (parse : String → Option Tag) (a b : List String) :
    firstParse parse (a ++ b) =
      match firstParse parse a with
      | some t => some t
      | none => firstParse parse b := by
  induction a with
  | nil => simp [firstParse]
  | cons s rest ih =>
    simp only [List.cons_append, firstParse]
    cases parse s <;> simp [ih]

theorem firstParse_reverse (parse : String → Option Tag) (l : List String) :
    firstParse parse l.reverse = lastParse parse l := by
  induction l with
  | nil => rfl
  | cons s rest ih =>
    rw [List.reverse_cons, firstParse_append, ih]
    cases h : lastParse parse rest
    · cases hp : parse s <;> simp [lastParse, h, firstParse, hp]
    · simp [lastParse, h, firstParse]

theorem localizerSetDefault_isSome {α : Type} (L : Int → Option (Locale α))
    (i : Int) : (localizerSetDefault L i).isSome = (L i).isSome := by
  unfold localizerSetDefault
  cases L i <;> simp

/-! Claim theorems. -/

/-- C3: language extraction strips the final extension, splits the rest on
path separators, underscores and dots, and returns the parse of the
rightmost segment that parses (none when no segment parses); in particular,
with a parser accepting exactly the genuine tags of the examples, the path
with the tag as leading directory and the path with the tag right before
the extension both resolve to el-GR, and a tag right before the extension
wins over a leading directory tag. -/
theorem C3_parse_language_rightmost :
    (∀ (parse : String → Option Tag) (path : String),
      parseLanguage parse path = rightmostParsedSegment parse path) ∧
    (∀ parse : String → Option Tag,
      parse "el-GR" = some "el-GR" → parse "en-US" = some "en-US" →
      parse "cart" = none → parse "checkout" = none → parse "file" = none →
      parseLanguage parse "el-GR/cart.checkout.yml" = some "el-GR" ∧
      parseLanguage parse "cart.checkout.el-GR.yml" = some "el-GR" ∧
      parseLanguage parse "el-GR/file.en-US.yml" = some "en-US") := by
  constructor
  · intro parse path
    unfold parseLanguage rightmostParsedSegment reverseStrings
    exact firstParse_reverse parse (fieldsFunc isLangSep (stripExt path))
  · intro parse hel hen hcart hcheckout hfile
    have e1 : reverseStrings (fieldsFunc isLangSep
        (stripExt "el-GR/cart.checkout.yml")) = ["checkout", "cart", "el-GR"] := by
      decide
    have e2 : reverseStrings (fieldsFunc isLangSep
        (stripExt "cart.checkout.el-GR.yml")) = ["el-GR", "checkout", "cart"] := by
      decide
    have e3 : reverseStrings (fieldsFunc isLangSep
        (stripExt "el-GR/file.en-US.yml")) = ["en-US", "file", "el-GR"] := by
      decide
    refine ⟨?_, ?_, ?_⟩
    · rw [parseLanguage, e1]
      simp [firstParse, hcart, hcheckout, hel]
    · rw [parseLanguage, e2]
      simp [firstParse, hel]
    · rw [parseLanguage, e3]
      simp [firstParse, hen]

/-- C3 witness: the general equivalence and the three examples evaluated at
a concrete parser accepting exactly el-GR and en-US. -/
theorem C3_witness :
    parse3 "cart" = none ∧
    parseLanguage parse3 "el-GR/cart.checkout.yml" = some "el-GR" ∧
    parseLanguage parse3 "cart.checkout.el-GR.yml" = some "el-GR" ∧
    parseLanguage parse3 "el-GR/file.en-US.yml" = some "en-US" := by
  have h := C3_parse_language_rightmost.2 parse3 (by decide) (by decide)
    (by decide) (by decide) (by decide)
  exact ⟨by decide, h.1, h.2.1, h.2.2⟩

/-- C4: with the matcher in open mode and the wrapped match confidence at
most Low, MatchOrAdd appends the candidate, returns it with Exact confidence
and the index new-length-minus-one, and rebuilds the wrapped matcher over
the grown list (so later matches see it); otherwise it returns exactly the
Match result and changes nothing. -/
theorem C4_match_or_add (newMatcher : List Tag → Tag → Tag × Int × Confidence)
    (m : Matcher) (t : Tag) :
    (m.strict = false → (m.Match t).2.2.toNat ≤ Confidence.Low.toNat →
      Matcher.MatchOrAdd newMatcher m t =
        ((t, ((m.languages ++ [t]).length : Int) - 1, Confidence.Exact),
          { strict := m.strict, languages := m.languages ++ [t],
            matcher := newMatcher (m.languages ++ [t]) })) ∧
    (¬ ((m.Match t).2.2.toNat ≤ Confidence.Low.toNat ∧ m.strict = false) →
      Matcher.MatchOrAdd newMatcher m t = (m.Match t, m)) := by
  constructor
  · intro hs hc
    simp [Matcher.MatchOrAdd, hs, hc]
  · intro hn
    simp only [Matcher.MatchOrAdd]
    rw [if_neg hn]

/-- C4 witness: an open-mode matcher matching nothing grows by the
candidate, which gets Exact confidence and the last index. -/
theorem C4_witness :
    (mW.Match "el").2.2.toNat ≤ Confidence.Low.toNat ∧
    Matcher.MatchOrAdd nmW mW "el" =
      (("el", ((mW.languages ++ ["el"]).length : Int) - 1, Confidence.Exact),
        { strict := mW.strict, languages := mW.languages ++ ["el"],
          matcher := nmW (mW.languages ++ ["el"]) }) :=
  ⟨by decide, (C4_match_or_add nmW mW "el").1 rfl (by decide)⟩

/-- C5: reload is atomic with respect to failure: a failing loader run makes
reload return that error with the previously published localizer untouched,
and the localizer is replaced exactly by a successful loader run. -/
theorem C5_reload_atomic {α : Type} (loader : Loader α) (st : LoadState α) :
    (∀ e, (loader st.matcher).1 = .error e →
      (reload loader st).1 = some e ∧
      (reload loader st).2.localizer = st.localizer) ∧
    (∀ loc, (loader st.matcher).1 = .ok loc →
      (reload loader st).1 = none ∧ (reload loader st).2.localizer = loc) := by
  constructor
  · intro e he
    simp [reload, he]
  · intro loc hl
    simp [reload, hl]

/-- C5 witness: a loader failing with a concrete error leaves the published
localizer in force and surfaces that error. -/
theorem C5_witness :
    (loaderErrW loadStW.matcher).1 = .error "boom" ∧
    (reload loaderErrW loadStW).1 = some "boom" ∧
    (reload loaderErrW loadStW).2.localizer = loadStW.localizer := by
  refine ⟨rfl, ?_, ?_⟩
  · exact ((C5_reload_atomic loaderErrW loadStW).1 "boom" rfl).1
  · exact ((C5_reload_atomic loaderErrW loadStW).1 "boom" rfl).2

/-- C6: for every key whose raw message carries template placeholders and
every argument list, a failing template compile or execution makes the
renderer return the printf-style formatting of the raw message against the
arguments (no error is surfaced: the renderer is total). -/
theorem C6_template_failure_falls_back {α : Type}
    (hasTemplate : String → Bool)
    (execTemplate : String → List α → Except String String)
    (sprintf : String → List α → String)
    (table : String → Option String) (key raw : String) (args : List α)
    (e : String) (hk : table key = some raw) (ht : hasTemplate raw = true)
    (he : execTemplate raw args = .error e) :
    renderMessage hasTemplate execTemplate sprintf table key args =
      sprintf raw args := by
  simp [renderMessage, hk, ht, he]

/-- C6 witness: a concrete one-key table with an always-failing template
engine renders printf-style. -/
theorem C6_witness :
    tableW "k" = some "T %s" ∧ hasTW "T %s" = true ∧
    renderMessage hasTW execTW sprintfW tableW "k" [] = "T %s!" := by
  refine ⟨rfl, rfl, ?_⟩
  rw [C6_template_failure_falls_back hasTW execTW sprintfW tableW "k" "T %s"
    [] "bad" rfl rfl rfl]
  rfl

/-- C1: Tr resolves the language through the matcher with index 0 for an
unmatched code (the trIndex hypothesis), renders the key at the resolved
locale, returns a nonempty rendering as is; an empty rendering at a nonzero
index with no DefaultMessageFunc and Strict off is retried at the locale of
index 0; an empty rendering with a DefaultMessageFunc configured returns
that function applied to (requested code, matched language, key, args); and
otherwise the empty string is returned. -/
theorem C1_tr_resolution_and_fallback {α : Type} (i : I18n α)
    (lang fmt : String) (args : List α) (index : Int)
    (hidx : index = i.trIndex lang)
    (loc : Locale α) (hloc : i.localizer index = some loc) :
    (loc.getMessage fmt args ≠ "" →
      i.Tr lang fmt args = loc.getMessage fmt args) ∧
    (loc.getMessage fmt args = "" → index ≠ 0 →
      i.defaultMessageFunc = none → i.strict = false →
      ∀ loc0, i.localizer 0 = some loc0 →
      i.Tr lang fmt args = loc0.getMessage fmt args) ∧
    (loc.getMessage fmt args = "" → ∀ f, i.defaultMessageFunc = some f →
      i.Tr lang fmt args = f lang loc.lang fmt args) ∧
    (loc.getMessage fmt args = "" → i.defaultMessageFunc = none →
      (index = 0 ∨ i.strict = true ∨
        ∀ loc0, i.localizer 0 = some loc0 → loc0.getMessage fmt args = "") →
      i.Tr lang fmt args = "") := by
  have hnn : 0 ≤ index := by
    rw [hidx]
    unfold I18n.trIndex
    cases h : i.tryMatch lang
    · simp
    · simp [Int.natCast_nonneg]
  refine ⟨?_, ?_, ?_, ?_⟩
  · intro hm
    simp [I18n.Tr, ← hidx, hloc, hm]
  · intro hm hne hdmf hstrict loc0 hloc0
    have hpos : 0 < index := lt_of_le_of_ne hnn (Ne.symm hne)
    by_cases hm0 : loc0.getMessage fmt args = ""
    · simp [I18n.Tr, ← hidx, hloc, hm, hdmf, hstrict, hpos, hloc0, hm0]
    · simp [I18n.Tr, ← hidx, hloc, hm, hdmf, hstrict, hpos, hloc0, hm0]
  · intro hm f hdmf
    simp [I18n.Tr, ← hidx, hloc, hm, hdmf]
  · intro hm hdmf hdisj
    rcases hdisj with h0 | hs | hf
    · subst h0
      simp [I18n.Tr, ← hidx, hloc, hm, hdmf]
    · simp [I18n.Tr, ← hidx, hloc, hm, hdmf, hs]
    · cases hl0 : i.localizer 0
      · simp [I18n.Tr, ← hidx, hloc, hm, hdmf, hl0]
      · simp [I18n.Tr, ← hidx, hloc, hm, hdmf, hl0, hf _ hl0]

/-- C1 witness: the two-locale instance renders a key missing at index 1
through the default locale at index 0. -/
theorem C1_witness :
    cfgC1.localizer 0 = some locEnC1 ∧ locElC1.getMessage "k" [] = "" ∧
    cfgC1.Tr "el" "k" [] = locEnC1.getMessage "k" [] := by
  refine ⟨rfl, rfl, ?_⟩
  exact (C1_tr_resolution_and_fallback cfgC1 "el" "k" [] 1 rfl locElC1
    rfl).2.1 rfl (by decide) rfl rfl locEnC1 rfl

/-- C2 (evaluation at the failing input): with only the extract function
configured and its value matching no language, the signal scan of GetLocale
leaves index -1, so the localizer is asked for index -1 and GetLocale
returns none even though the locale at index 0 exists — against the claim
(and the GetLocale doc comment) that the index 0 locale is used. -/
theorem C2_failed_signal_gives_negative_index :
    glC2.resolveSignalsIndex reqBase = -1 ∧
    glC2.getLocale reqBase = none ∧
    (glC2.localizer 0).isSome = true :=
  ⟨rfl, rfl, rfl⟩

/-- C9 counterexample: with a DefaultMessageFunc configured that echoes the
requested code and a key empty everywhere, the unmatched code xx and the
default code en-US translate differently, refuting the unconditional
claim. -/
theorem C9_counterexample :
    trC9.tryMatch "xx" = none ∧ trC9.tryMatch "en-US" = some ("en-US", 0) ∧
    trC9.Tr "xx" "k" [] ≠ trC9.Tr "en-US" "k" [] := by
  refine ⟨rfl, rfl, ?_⟩
  decide

/-- C9 as amended: when no DefaultMessageFunc is configured, a language code
matching no registered language translates exactly as the code of the
language registered at index 0 (any code resolving to index 0). -/
theorem C9_amended_unmatched_equals_default {α : Type} (i : I18n α)
    (c defaultCode fmt : String) (args : List α)
    (hdmf : i.defaultMessageFunc = none)
    (hc : i.tryMatch c = none)
    (hd : i.trIndex defaultCode = 0) :
    i.Tr c fmt args = i.Tr defaultCode fmt args := by
  have hc0 : i.trIndex c = 0 := by
    unfold I18n.trIndex
    rw [hc]
  simp only [I18n.Tr, hc0, hd, hdmf]

/-- C9 amended witness: with the DefaultMessageFunc removed the unmatched
code xx translates as the default code en-US. -/
theorem C9_amended_witness :
    cfgC9w.defaultMessageFunc = none ∧ cfgC9w.tryMatch "xx" = none ∧
    cfgC9w.Tr "xx" "k" [] = cfgC9w.Tr "en-US" "k" [] :=
  ⟨rfl, rfl,
    C9_amended_unmatched_equals_default cfgC9w "xx" "en-US" "k" [] rfl rfl rfl⟩

/-- C10: with the context key configured and a string stored under it,
GetLocale returns immediately from that value alone: the literal value
default gives the locale at index 0 (independently of the matcher), any
string value gives the locale at the context-resolved index (none when the
localizer has no locale there), and the result never depends on the extract
function, URL parameter, cookie, subdomain or Accept-Language signals. -/
theorem C10_context_short_circuit {α : Type} (i : I18n α) (r : Request)
    (s : String) (hk : i.contextKeySet = true)
    (hv : r.contextValue = some (some s)) :
    i.getLocale r = i.localizer (i.ctxResolvedIndex s) ∧
    (s = "default" → i.getLocale r = i.localizer 0) ∧
    (∀ (i2 : I18n α) (r2 : Request), i2.contextKeySet = true →
      r2.contextValue = some (some s) → i2.localizer = i.localizer →
      i2.tryMatch = i.tryMatch → i2.getLocale r2 = i.getLocale r) ∧
    (s = "default" → ∀ (i3 : I18n α) (r3 : Request),
      i3.contextKeySet = true → r3.contextValue = some (some s) →
      i3.localizer = i.localizer → i3.getLocale r3 = i.localizer 0) := by
  have base : i.getLocale r = i.localizer (i.ctxResolvedIndex s) := by
    simp [I18n.getLocale, hk, hv]
  refine ⟨base, ?_, ?_, ?_⟩
  · intro hs
    rw [base, hs]
    simp [I18n.ctxResolvedIndex]
  · intro i2 r2 hk2 hv2 hL htm
    have b2 : i2.getLocale r2 = i2.localizer (i2.ctxResolvedIndex s) := by
      simp [I18n.getLocale, hk2, hv2]
    have hcx : i2.ctxResolvedIndex s = i.ctxResolvedIndex s := by
      simp [I18n.ctxResolvedIndex, htm]
    rw [b2, base, hL, hcx]
  · intro hs i3 r3 hk3 hv3 hL
    have b3 : i3.getLocale r3 = i3.localizer (i3.ctxResolvedIndex s) := by
      simp [I18n.getLocale, hk3, hv3]
    rw [b3, hL, hs]
    simp [I18n.ctxResolvedIndex]

/-- C10 witness: the context value default short-circuits to the locale at
index 0. -/
theorem C10_witness :
    cfg10.contextKeySet = true ∧ req10.contextValue = some (some "default") ∧
    cfg10.getLocale req10 = cfg10.localizer 0 :=
  ⟨rfl, rfl, (C10_context_short_circuit cfg10 req10 "default" rfl rfl).2.1 rfl⟩

/-- C7: SetDefault succeeds exactly when the code parses, the match
confidence is above Low and the localizer supports default reassignment
(here: has a Locale at the matched index); on failure nothing changes; on
success the registered tags at index 0 and at the matched index are
exchanged (other slots untouched), the wrapped matcher is rebuilt over the
new list, and the localizer slots 0 and matched-index are swapped with
their index identities reassigned (other slots untouched). -/
theorem C7_set_default_swap {α : Type} (parse : String → Option Tag)
    (newMatcher : List Tag → Tag → Tag × Int × Confidence)
    (st : SDState α) (langCode : String) :
    ((setDefault parse newMatcher st langCode).1 = true ↔
      ∃ t, parse langCode = some t ∧
        (st.matcher.Match t).2.2.gtLow = true ∧ st.sdSupported = true ∧
        (st.localizer (st.matcher.Match t).2.1).isSome = true) ∧
    ((setDefault parse newMatcher st langCode).1 = false →
      (setDefault parse newMatcher st langCode).2 = st) ∧
    (∀ t tag index conf loc,
      parse langCode = some t → st.matcher.Match t = (tag, index, conf) →
      conf.gtLow = true → st.sdSupported = true →
      st.localizer index = some loc →
      tag = st.matcher.languages.getD index.toNat "" →
      index.toNat < st.matcher.languages.length →
      ((setDefault parse newMatcher st langCode).2.matcher.languages.getD 0 ""
          = st.matcher.languages.getD index.toNat "" ∧
        (setDefault parse newMatcher st langCode).2.matcher.languages.getD
            index.toNat "" = st.matcher.languages.getD 0 "" ∧
        ∀ j, j ≠ 0 → j ≠ index.toNat →
          (setDefault parse newMatcher st langCode).2.matcher.languages.getD
              j "" = st.matcher.languages.getD j "") ∧
      (setDefault parse newMatcher st langCode).2.matcher.matcher =
        newMatcher
          (setDefault parse newMatcher st langCode).2.matcher.languages ∧
      (setDefault parse newMatcher st langCode).2.localizer 0 =
        some { loc with index := 0 } ∧
      (setDefault parse newMatcher st langCode).2.localizer index =
        (st.localizer 0).map (fun f => { f with index := index }) ∧
      ∀ j, j ≠ 0 → j ≠ index →
        (setDefault parse newMatcher st langCode).2.localizer j =
          st.localizer j) := by
  refine ⟨⟨?_, ?_⟩, ?_, ?_⟩
  · -- success implies the three conditions
    intro h
    simp only [setDefault] at h
    cases hp : parse langCode with
    | none => simp [hp] at h
    | some t =>
      simp only [hp] at h
      by_cases hconf : (st.matcher.Match t).2.2.gtLow = true
      · by_cases hsup : st.sdSupported = true
        · cases hL : localizerSetDefault st.localizer (st.matcher.Match t).2.1 with
          | none => simp [hconf, hsup, hL] at h
          | some L2 =>
            refine ⟨t, rfl, hconf, hsup, ?_⟩
            have hiso := localizerSetDefault_isSome st.localizer
              (st.matcher.Match t).2.1
            rw [hL] at hiso
            simpa using hiso.symm
        · simp [hconf, hsup] at h
      · simp [hconf] at h
  · -- the three conditions imply success
    rintro ⟨t, hp, hconf, hsup, hiso⟩
    obtain ⟨loc, hLidx⟩ : ∃ loc,
        st.localizer (st.matcher.Match t).2.1 = some loc := by
      cases hL : st.localizer (st.matcher.Match t).2.1
      · rw [hL] at hiso
        simp at hiso
      · exact ⟨_, rfl⟩
    simp [setDefault, hp, hconf, hsup, localizerSetDefault, hLidx]
  · -- failure leaves the state unchanged
    intro h
    simp only [setDefault] at h ⊢
    cases hp : parse langCode with
    | none => simp [hp]
    | some t =>
      simp only [hp] at h ⊢
      by_cases hconf : (st.matcher.Match t).2.2.gtLow = true
      · by_cases hsup : st.sdSupported = true
        · cases hL : localizerSetDefault st.localizer (st.matcher.Match t).2.1 with
          | none => simp [hconf, hsup, hL]
          | some L2 => simp [hconf, hsup, hL] at h
        · simp [hconf, hsup]
      · simp [hconf]
  · -- success effects
    intro t tag index conf loc hp hmt hconf hsup hLidx htag hlen
    have hsd2 : localizerSetDefault st.localizer index = some (fun j =>
        if j = 0 then some { loc with index := 0 }
        else if j = index then
          (st.localizer 0).map fun f => { f with index := index }
        else st.localizer j) := by
      simp [localizerSetDefault, hLidx]
    have hres : setDefault parse newMatcher st langCode = (true,
        { st with
          localizer := fun j =>
            if j = 0 then some { loc with index := 0 }
            else if j = index then
              (st.localizer 0).map fun f => { f with index := index }
            else st.localizer j,
          matcher := { st.matcher with
            languages := (st.matcher.languages.set index.toNat
              (st.matcher.languages.getD 0 "")).set 0 tag,
            matcher := newMatcher ((st.matcher.languages.set index.toNat
              (st.matcher.languages.getD 0 "")).set 0 tag) } }) := by
      simp [setDefault, hp, hmt, hconf, hsup, hsd2]
    have hlang : (setDefault parse newMatcher st langCode).2.matcher.languages
        = (st.matcher.languages.set index.toNat
            (st.matcher.languages.getD 0 "")).set 0 tag := by
      rw [hres]
    have hmatch2 : (setDefault parse newMatcher st langCode).2.matcher.matcher
        = newMatcher ((st.matcher.languages.set index.toNat
            (st.matcher.languages.getD 0 "")).set 0 tag) := by
      rw [hres]
    have hloc2 : (setDefault parse newMatcher st langCode).2.localizer =
        fun j =>
          if j = 0 then some { loc with index := 0 }
          else if j = index then
            (st.localizer 0).map fun f => { f with index := index }
          else st.localizer j := by
      rw [hres]
    have hpos : 0 < st.matcher.languages.length :=
      Nat.lt_of_le_of_lt (Nat.zero_le _) hlen
    have hpos2 : 0 < ((st.matcher.languages.set index.toNat
        (st.matcher.languages.getD 0 "")).length) := by
      simpa using hpos
    refine ⟨⟨?_, ?_, ?_⟩, ?_, ?_, ?_, ?_⟩
    · -- new slot 0 holds the old tag at the matched index
      rw [hlang, List.getD_eq_getElem?_getD,
        List.getElem?_set_eq_of_lt tag hpos2]
      simp [htag]
    · -- new slot at the matched index holds the old slot 0
      by_cases h0 : index.toNat = 0
      · have hpos3 : 0 < ((st.matcher.languages.set 0
            (st.matcher.languages.getD 0 "")).length) := by
          simpa using hpos
        rw [hlang, h0, List.getD_eq_getElem?_getD,
          List.getElem?_set_eq_of_lt tag hpos3]
        rw [h0] at htag
        simp [htag]
      · rw [hlang, List.getD_eq_getElem?_getD,
          List.getElem?_set_ne (fun hc => h0 hc.symm),
          List.getElem?_set_eq_of_lt _ hlen]
        simp
    · -- other tag slots are untouched
      intro j hj0 hji
      rw [hlang, List.getD_eq_getElem?_getD,
        List.getElem?_set_ne (fun hc => hj0 hc.symm),
        List.getElem?_set_ne (fun hc => hji hc.symm),
        ← List.getD_eq_getElem?_getD]
    · -- the wrapped matcher is rebuilt over the new list
      rw [hmatch2, hlang]
    · -- localizer slot 0
      rw [hloc2]
      simp
    · -- localizer slot at the matched index
      rw [hloc2]
      by_cases h0 : index = 0
      · subst h0
        rw [hLidx]
        simp
      · simp [h0]
    · -- other localizer slots are untouched
      intro j hj0 hji
      rw [hloc2]
      simp [hj0, hji]

/-- C7 witness: swapping the default to el-GR in the two-locale instance
moves el-GR to tag slot 0 and its Locale (reindexed to 0) to localizer
slot 0. -/
theorem C7_witness :
    parse7 "el-GR" = some "el-GR" ∧
    (setDefault parse7 nmW st7 "el-GR").1 = true ∧
    (setDefault parse7 nmW st7 "el-GR").2.matcher.languages.getD 0 "" =
      "el-GR" ∧
    (setDefault parse7 nmW st7 "el-GR").2.localizer 0 =
      some { loc7el with index := 0 } := by
  have h3 := (C7_set_default_swap parse7 nmW st7 "el-GR").2.2 "el-GR" "el-GR"
    1 Confidence.Exact loc7el rfl rfl rfl rfl rfl (by decide) (by decide)
  refine ⟨rfl, ?_, ?_, ?_⟩
  · exact (C7_set_default_swap parse7 nmW st7 "el-GR").1.mpr
      ⟨"el-GR", rfl, rfl, rfl, rfl⟩
  · rw [h3.1.1]
    decide
  · exact h3.2.2.1

/-- C8: a request whose first path segment matches a registered language is
handed to the wrapped handler with that segment stripped from the path (the
root slash when the remainder is empty) and the detected language recorded
as the cookie (when a cookie name is configured), otherwise the URL
parameter, and always the Accept-Language header; a request where neither
the first path segment nor (when enabled) the subdomain matches passes
through unchanged with no recording. -/
theorem C8_router_strip_and_passthrough {α : Type}
    (domainOf : String → String) (i : I18n α) (r : Request) :
    (∀ seg tagStr idx p2, seg = firstPathSegment r.urlPath → seg ≠ "" →
      i.tryMatch seg = some (tagStr, idx) →
      p2 = (if r.urlPath.drop (seg.length + 1) = "" then "/"
        else r.urlPath.drop (seg.length + 1)) →
      i.router domainOf r =
        ({ r with requestURI := p2, urlPath := p2 },
          (if i.cookie ≠ "" then
            [Action.setCookie i.cookie tagStr (domainOf (getHost r))]
          else if i.urlParameter ≠ "" then
            [Action.setQueryParam i.urlParameter tagStr]
          else []) ++ [Action.setHeader "Accept-Language" tagStr])) ∧
    ((i.tryMatch (firstPathSegment r.urlPath) = none ∨
        firstPathSegment r.urlPath = "") →
      (i.subdomain = false ∨ (getSubdomain r).1 = "" ∨
        i.tryMatch (getSubdomain r).1 = none) →
      i.router domainOf r = (r, [])) := by
  constructor
  · intro seg tagStr idx p2 hseg hne htm hp2
    subst hseg
    subst hp2
    simp [I18n.router, hne, htm, I18n.setLang]
  · intro h1 h2
    have hmatched : (if firstPathSegment r.urlPath ≠ "" then
        match i.tryMatch (firstPathSegment r.urlPath) with
        | some p =>
          some ({ r with
            requestURI := if r.urlPath.drop
                ((firstPathSegment r.urlPath).length + 1) = "" then "/"
              else r.urlPath.drop ((firstPathSegment r.urlPath).length + 1),
            urlPath := if r.urlPath.drop
                ((firstPathSegment r.urlPath).length + 1) = "" then "/"
              else r.urlPath.drop ((firstPathSegment r.urlPath).length + 1) },
            i.setLang domainOf r p.1)
        | none => none
      else none) = none := by
      rcases h1 with htm | hs
      · simp [htm]
      · simp [hs]
    rcases h2 with hsub | hse | hstm
    · simp [I18n.router, hsub]
      rcases h1 with htm | hs
      · simp [htm]
      · simp [hs]
    · rcases h1 with htm | hs
      · simp [I18n.router, htm, hse]
      · simp [I18n.router, hs, hse]
    · rcases h1 with htm | hs
      · simp [I18n.router, htm, hstm]
      · simp [I18n.router, hs, hstm]

/-- C8 witness: the path with the el prefix is stripped to the cart path and
the matched tag recorded in the configured cookie and the header. -/
theorem C8_witness :
    firstPathSegment req8.urlPath = "el" ∧
    cfg8.router domainOfW req8 =
      ({ req8 with requestURI := "/cart", urlPath := "/cart" },
        [Action.setCookie "lang" "el-GR" "example.com",
          Action.setHeader "Accept-Language" "el-GR"]) := by
  constructor
  · decide
  · rw [(C8_router_strip_and_passthrough domainOfW cfg8 req8).1 "el" "el-GR"
      1 "/cart" (by decide) (by decide) rfl (by decide)]
    rfl

end I18nSpec
